import Mathlib

/-!
Shallow embedding of the CipherGate domain-checker subsystem:
`src/service/domain_checker/domain_checker.py` (DNS probe, result
classifier, due-check policy) and
`src/service/domain_checker/domain_store.py` (JSON-backed, categorized
domain registry).

Modelling conventions:
- Python dicts/lists become Lean structures and lists; the `countries`
  dict becomes an association list in insertion order (Python dicts
  preserve insertion order, and `json.load` preserves file order).
- Timestamps: the store keeps `last_checked_at` as an ISO string which
  the checker turns into a datetime via `_parse_iso` (returning `None`
  for null or unparseable input).  The embedding carries the parsed
  value directly as `Option Int` (seconds); `none` covers both a null
  and an unparseable stored string.  "Current UTC time" becomes an
  explicit `now : Int` parameter.
- Fallible operations (`raise ValueError`) become `Except String`.
- Python truthiness is modelled explicitly where the source relies on
  it (`public.get("error") and iran.get("error")`, `... or 60`,
  `label or name`).
-/

namespace CipherGate

/-- Values the probe stores in the `rcode` field besides null: the
integer `0` on success, or the textual codes "NXDOMAIN" / "NO_ANSWER". -/
inductive Rcode where
  | rc0
  | nxdomain
  | noAnswer
  deriving DecidableEq

/-- Record returned by `_query_dns_blocking`: keys `answers`, `rcode`,
`error` of the Python dict. -/
structure DnsResult where
  answers : List String
  rcode : Option Rcode
  error : Option String
  deriving DecidableEq

/-- Outcomes of the resolution layer that `_query_dns_blocking` can
observe: a successful resolve, or one of the `dns.*` exception classes
its `except` arms catch (`NXDOMAIN`, `NoAnswer`, `Timeout`, and any
other `dns.exception.DNSException` carrying a message `str(e)`).  The
function being total on this type embeds "never raises to the caller". -/
inductive DnsOutcome where
  | success (addrs : List String)
  | nxdomain
  | noAnswer
  | timeout
  | dnsError (msg : String)
  deriving DecidableEq

/-- Embedding of `_query_dns_blocking` (domain_checker.py lines 49-71):
the dict starts as `{answers: [], rcode: None, error: None}` and each
try/except arm fills it in. -/
def query_dns_blocking : DnsOutcome → DnsResult
  | .success addrs => { answers := addrs, rcode := some .rc0, error := none }
  | .nxdomain => { answers := [], rcode := some .nxdomain, error := none }
  | .noAnswer => { answers := [], rcode := some .noAnswer, error := none }
  | .timeout => { answers := [], rcode := none, error := some "TIMEOUT" }
  | .dnsError msg => { answers := [], rcode := none, error := some msg }

/-- Python truthiness of an optional string: `None` and `""` are falsy. -/
def truthyStr : Option String → Bool
  | none => false
  | some s => !(s == "")

/-- Python `set(xs) == set(ys)` on lists of strings: mutual containment. -/
def setEqStr (xs ys : List String) : Bool :=
  xs.all (fun x => ys.contains x) && ys.all (fun y => xs.contains y)

/-- Embedding of `analyze_results` (domain_checker.py lines 85-116).
`pub_ans = public.get("answers") or []` is the `answers` list itself
(probe records always carry a list); the error test
`public.get("error") and iran.get("error")` is Python truthiness. -/
def analyze_results (public iran : DnsResult) : String × (DnsResult × DnsResult) :=
  if truthyStr public.error && truthyStr iran.error then
    ("error", (public, iran))
  else if !public.answers.isEmpty then
    if !iran.answers.isEmpty then
      if setEqStr public.answers iran.answers then ("ok", (public, iran))
      else ("filtered", (public, iran))
    else ("filtered", (public, iran))
  else
    ("inconclusive", (public, iran))

/-- Decision table written from the spec's words (amended so that the
first row fires on truthy — non-null and non-empty — error fields):
row 1 error, row 2 public-answers non-empty with `filtered` when the
local answers are empty or the sets differ and `ok` otherwise, row 3
inconclusive. -/
def classify_spec (public iran : DnsResult) : String :=
  if truthyStr public.error && truthyStr iran.error then "error"
  else if !public.answers.isEmpty then
    if iran.answers.isEmpty || !setEqStr public.answers iran.answers then "filtered"
    else "ok"
  else "inconclusive"

/-- Python `str.lower()`, written over the character list so the kernel
can evaluate it (ASCII case mapping, as the section names use). -/
def pyLower (s : String) : String := ⟨s.data.map Char.toLower⟩

/-- Python `str.upper()`, written over the character list so the kernel
can evaluate it. -/
def pyUpper (s : String) : String := ⟨s.data.map Char.toUpper⟩

/-- Domain entry, the dict built by `_ensure_domain_entry`
(domain_store.py lines 140-152).  `check_interval_minutes` is `Option`
because a loaded JSON entry may lack the key or have it null;
`last_checked_at` is the parsed timestamp (see module docstring). -/
structure DomainEntry where
  name : String
  label : String
  purpose : String
  check_interval_minutes : Option Int
  notify_admins : Bool
  last_checked_at : Option Int
  last_status : Option String
  last_details : Option (DnsResult × DnsResult)
  notes : String
  deriving DecidableEq

/-- The `domains` document: `management` and `subscription` lists plus
the `countries` dict as an insertion-ordered association list. -/
structure DomainStore where
  management : List DomainEntry
  subscription : List DomainEntry
  countries : List (String × List DomainEntry)
  deriving DecidableEq

/-- Embedding of `_ensure_domain_entry`: `label or name` maps a null or
empty label to `name`; fresh entries have null check state. -/
def ensure_domain_entry (name : String) (label : Option String) (purpose : String)
    (check_interval_minutes : Int) (notify_admins : Bool) (notes : String) : DomainEntry :=
  { name := name
    label := match label with
      | none => name
      | some l => if l == "" then name else l
    purpose := purpose
    check_interval_minutes := some check_interval_minutes
    notify_admins := notify_admins
    last_checked_at := none
    last_status := none
    last_details := none
    notes := notes }

/-- Scan sequence shared by the store's loops: management, then
subscription, then every country bucket in the dict's stored order. -/
def scanOrder (s : DomainStore) : List DomainEntry :=
  s.management ++ s.subscription ++ (s.countries.map Prod.snd).flatten

/-- Loop body of `list_all_domains` (domain_store.py lines 86-110): the
accumulator is the pair `(out, seen)`; an entry is appended when its
name is truthy and not yet seen. -/
def listStep (acc : List DomainEntry × List String) (d : DomainEntry) :
    List DomainEntry × List String :=
  if (d.name == "") || acc.2.contains d.name then acc
  else (acc.1 ++ [d], d.name :: acc.2)

/-- Embedding of `list_all_domains`: the three loops over management,
subscription and the country buckets fold `listStep` over `scanOrder`. -/
def list_all_domains (s : DomainStore) : List DomainEntry :=
  ((scanOrder s).foldl listStep ([], [])).1

/-- Embedding of `find_domain` (domain_store.py lines 132-137): first
entry of `list_all_domains` whose name equals the query. -/
def find_domain (name : String) (s : DomainStore) : Option DomainEntry :=
  (list_all_domains s).find? (fun d => d.name == name)

/-- De-duplication written from the spec's words: keep the first
occurrence of each name, in scan order. -/
def dedupSpec (seen : List String) : List DomainEntry → List DomainEntry
  | [] => []
  | d :: rest =>
    if seen.contains d.name then dedupSpec seen rest
    else d :: dedupSpec (d.name :: seen) rest

/-- Lexicographic comparison of character lists, used to express
"country-code order". -/
def charListLe : List Char → List Char → Bool
  | [], _ => true
  | _ :: _, [] => false
  | a :: as, b :: bs => if a < b then true else if b < a then false else charListLe as bs

/-- Lexicographic order on country codes. -/
def codeLe (a b : String) : Bool := charListLe a.data b.data

/-- Insertion into an association list sorted by country code. -/
def insertByCode (p : String × List DomainEntry) :
    List (String × List DomainEntry) → List (String × List DomainEntry)
  | [] => [p]
  | q :: rest => if codeLe p.1 q.1 then p :: q :: rest else q :: insertByCode p rest

/-- Sort the country buckets by country code. -/
def sortByCode (l : List (String × List DomainEntry)) : List (String × List DomainEntry) :=
  l.foldr insertByCode []

/-- Modelled from the spec: the flattened view the spec describes, with
the country buckets visited in country-code order rather than the
map's stored order. -/
def list_all_spec_ordered (s : DomainStore) : List DomainEntry :=
  dedupSpec []
    (s.management ++ s.subscription ++ ((sortByCode s.countries).map Prod.snd).flatten)

/-- Lookup of a country bucket; missing code yields the empty list
(the `setdefault(country, [])` view used for the duplicate check). -/
def lookupCountry (c : String) : List (String × List DomainEntry) → List DomainEntry
  | [] => []
  | (k, l) :: rest => if k == c then l else lookupCountry c rest

/-- Append an entry to a country bucket, creating the bucket at the end
of the map when absent (`setdefault` plus `append`). -/
def appendToCountry (c : String) (e : DomainEntry) :
    List (String × List DomainEntry) → List (String × List DomainEntry)
  | [] => [(c, [e])]
  | (k, l) :: rest =>
    if k == c then (k, l ++ [e]) :: rest else (k, l) :: appendToCountry c e rest

/-- Embedding of `add_domain` (domain_store.py lines 155-192).  The
source parameter is called `section`, a Lean keyword, hence `sect`.
A `ValueError` becomes `Except.error`; on success the new store (what
`save_domains` persists) is returned with the created entry. -/
def add_domain (sect name : String) (label country : Option String) (purpose : String)
    (check_interval_minutes : Int) (notify_admins : Bool) (notes : String)
    (s : DomainStore) : Except String (DomainStore × DomainEntry) :=
  let entry := ensure_domain_entry name label purpose check_interval_minutes notify_admins notes
  if pyLower sect == "management" then
    if s.management.any (fun d => d.name == name) then
      .error ("Domain " ++ name ++ " already exists in management")
    else .ok ({ s with management := s.management ++ [entry] }, entry)
  else if pyLower sect == "subscription" then
    if s.subscription.any (fun d => d.name == name) then
      .error ("Domain " ++ name ++ " already exists in subscription")
    else .ok ({ s with subscription := s.subscription ++ [entry] }, entry)
  else if pyLower sect == "countries" then
    match country with
    | none => .error "country code required when adding to countries section"
    | some c0 =>
      if c0 == "" then .error "country code required when adding to countries section"
      else
        let c := pyUpper c0
        if (lookupCountry c s.countries).any (fun d => d.name == name) then
          .error ("Domain " ++ name ++ " already exists in countries." ++ c)
        else .ok ({ s with countries := appendToCountry c entry s.countries }, entry)
  else .error "Invalid section. Use management, subscription or countries"

/-- Check for the error constructor of `Except`. -/
def exceptIsError {ε α : Type} : Except ε α → Bool
  | .error _ => true
  | .ok _ => false

/-- Durable content of the store after an `add_domain` call: the saved
structure on success, the untouched prior content when the call raised
(the `raise` happens before `save_domains`). -/
def add_domain_saved (sect name : String) (label country : Option String) (purpose : String)
    (check_interval_minutes : Int) (notify_admins : Bool) (notes : String)
    (s : DomainStore) : DomainStore :=
  match add_domain sect name label country purpose check_interval_minutes notify_admins notes s with
  | .ok (s2, _) => s2
  | .error _ => s

/-- Countries loop of `remove_domain` (domain_store.py lines 217-226):
filter each bucket, count removals before pruning, and drop a bucket
whose filtered list is empty. -/
def removeFromCountries (name : String) :
    List (String × List DomainEntry) → List (String × List DomainEntry) × Nat
  | [] => ([], 0)
  | (c, l) :: rest =>
    let l2 := l.filter (fun d => !(d.name == name))
    let r := removeFromCountries name rest
    (if l2.isEmpty then r.1 else (c, l2) :: r.1, (l.length - l2.length) + r.2)

/-- Embedding of `remove_domain` (domain_store.py lines 195-230).  The
returned store is the durable content: the filtered structure when at
least one entry was removed (then `save_domains` runs), the original
store otherwise (no save). -/
def remove_domain (name : String) (s : DomainStore) : DomainStore × Nat :=
  let newM := s.management.filter (fun d => !(d.name == name))
  let newS := s.subscription.filter (fun d => !(d.name == name))
  let cres := removeFromCountries name s.countries
  let removed := (s.management.length - newM.length) + (s.subscription.length - newS.length)
    + cres.2
  (if removed > 0 then ⟨newM, newS, cres.1⟩ else s, removed)

/-- Number of entries carrying `name` across all buckets. -/
def countOccurrences (name : String) (s : DomainStore) : Nat :=
  ((scanOrder s).filter (fun d => d.name == name)).length

/-- Python `int(x or 60)` on the optional interval: `None` and `0` are
falsy and give the default 60. -/
def pythonIntOr60 : Option Int → Int
  | none => 60
  | some n => if n == 0 then 60 else n

/-- Embedding of `_should_check` (domain_checker.py lines 138-150):
true when the parsed `last_checked_at` is missing, else when the
elapsed seconds reach `interval * 60`. -/
def should_check (e : DomainEntry) (now : Int) : Bool :=
  let interval := pythonIntOr60 e.check_interval_minutes
  match e.last_checked_at with
  | none => true
  | some last => decide (now - last ≥ interval * 60)

/-- Field updates `touch_last_check` performs on a matching entry
(domain_store.py lines 276-283): stamp `last_checked_at` and
`last_status`, and overwrite `last_details` only when details were
given. -/
def touchFields (status : String) (details : Option (DnsResult × DnsResult)) (now : Int)
    (d : DomainEntry) : DomainEntry :=
  { d with
    last_checked_at := some now
    last_status := some status
    last_details := match details with
      | some x => some x
      | none => d.last_details }

/-- Per-entry step of the `_touch` loop: update the entry when its name
matches, keep it otherwise. -/
def touchIfMatch (name status : String) (details : Option (DnsResult × DnsResult)) (now : Int)
    (d : DomainEntry) : DomainEntry :=
  if d.name == name then touchFields status details now d else d

/-- Last entry of a list whose name matches: the final value Python's
`updated` variable holds after the `_touch` loops ran over every
bucket in scan order. -/
def lastMatch (name : String) : List DomainEntry → Option DomainEntry
  | [] => none
  | d :: rest =>
    match lastMatch name rest with
    | some r => some r
    | none => if d.name == name then some d else none

/-- Return value of `touch_last_check`: the last matching entry, after
its update. -/
def touch_updated (name status : String) (details : Option (DnsResult × DnsResult)) (now : Int)
    (s : DomainStore) : Option DomainEntry :=
  (lastMatch name (scanOrder s)).map (touchFields status details now)

/-- Embedding of `touch_last_check` (domain_store.py lines 267-292):
touch every occurrence in every bucket; save (first component = new
durable content) only when at least one entry matched, otherwise the
durable content stays `s`. -/
def touch_last_check (name status : String) (details : Option (DnsResult × DnsResult))
    (now : Int) (s : DomainStore) : DomainStore × Option DomainEntry :=
  (if (touch_updated name status details now s).isSome then
    ⟨s.management.map (touchIfMatch name status details now),
     s.subscription.map (touchIfMatch name status details now),
     s.countries.map (fun p => (p.1, p.2.map (touchIfMatch name status details now)))⟩
   else s,
   touch_updated name status details now s)

/-- One concurrent caller of `touch_last_check`, decomposed at the
store's locking granularity: `load_domains` and `save_domains` each
take and release the file lock internally, and nothing holds the lock
between them, so the load (snapshot) and the save (write-back of the
touched snapshot) are the two atomic steps such a caller contributes
to an interleaving. -/
structure TouchThread where
  op_name : String
  op_status : String
  op_time : Int
  loaded : Option DomainStore
  done : Bool
  deriving DecidableEq

/-- Execute one atomic step of a touch caller against the shared store:
first step loads a snapshot, second step saves the touched snapshot. -/
def threadStep (shared : DomainStore) (t : TouchThread) : DomainStore × TouchThread :=
  match t.loaded, t.done with
  | none, false => (shared, { t with loaded := some shared })
  | some snap, false =>
    ((touch_last_check t.op_name t.op_status none t.op_time snap).1, { t with done := true })
  | _, _ => (shared, t)

/-- Two touch callers racing on one shared store. -/
structure Sys2 where
  shared : DomainStore
  thread0 : TouchThread
  thread1 : TouchThread
  deriving DecidableEq

/-- Run one step of the chosen thread (`false` = thread0). -/
def sysStep (st : Sys2) (b : Bool) : Sys2 :=
  if b then
    let r := threadStep st.shared st.thread1
    { st with shared := r.1, thread1 := r.2 }
  else
    let r := threadStep st.shared st.thread0
    { st with shared := r.1, thread0 := r.2 }

/-- Run a whole schedule of thread choices. -/
def runSched (sched : List Bool) (st : Sys2) : Sys2 :=
  sched.foldl sysStep st

end CipherGate

namespace CipherGate

/-! Theorems settling the claims. -/

/-- C1, counterexample: the claim reads the first decision row as "both
error fields are non-null", but `analyze_results` tests Python
truthiness, so a pair of probe results whose errors are both non-null —
one of them the empty string, as produced for a DNSException with an
empty message — classifies as "inconclusive", not "error". -/
theorem c1_counterexample :
    query_dns_blocking (.dnsError "") = { answers := [], rcode := none, error := some "" } ∧
    query_dns_blocking .timeout = { answers := [], rcode := none, error := some "TIMEOUT" } ∧
    (query_dns_blocking (.dnsError "")).error.isSome = true ∧
    (query_dns_blocking .timeout).error.isSome = true ∧
    (analyze_results (query_dns_blocking (.dnsError "")) (query_dns_blocking .timeout)).1
      = "inconclusive" ∧
    ¬(analyze_results (query_dns_blocking (.dnsError "")) (query_dns_blocking .timeout)).1
      = "error" := by
  decide

/-- C1, amended: with the first row read as "both error fields truthy
(non-null and non-empty)", `analyze_results` follows the spec's decision
table in its exact order — error, then ok/filtered on a non-empty
public answer set (filtered when the local answers are empty or the
answer sets differ, ok when they agree), else inconclusive — and
returns the probe pair as details. -/
theorem c1_decision_table (public iran : DnsResult) :
    analyze_results public iran = (classify_spec public iran, (public, iran)) := by
  unfold analyze_results classify_spec
  cases h1 : truthyStr public.error && truthyStr iran.error <;>
    cases h2 : public.answers.isEmpty <;>
      cases h3 : iran.answers.isEmpty <;>
        cases h4 : setEqStr public.answers iran.answers <;>
          simp [h1, h2, h3, h4]

/-- C3: the probe is a total function of the resolution outcome — every
failure mode is encoded in the returned record, never thrown — and each
outcome maps exactly as the claim states: success to the address list
with rcode 0 and null error, NXDOMAIN and NoAnswer to empty answers
with the textual rcode and null error, timeout to empty answers, null
rcode and error "TIMEOUT", and any other resolution-layer exception to
null rcode with its message as the error. -/
theorem c3_probe_encoding (addrs : List String) (msg : String) :
    query_dns_blocking (.success addrs)
      = { answers := addrs, rcode := some .rc0, error := none } ∧
    query_dns_blocking .nxdomain
      = { answers := [], rcode := some .nxdomain, error := none } ∧
    query_dns_blocking .noAnswer
      = { answers := [], rcode := some .noAnswer, error := none } ∧
    query_dns_blocking .timeout
      = { answers := [], rcode := none, error := some "TIMEOUT" } ∧
    query_dns_blocking (.dnsError msg)
      = { answers := [], rcode := none, error := some msg } :=
  ⟨rfl, rfl, rfl, rfl, rfl⟩

/-- C4: for an entry with a positive configured interval `k`, the
due-check is true when the (parsed) `last_checked_at` is missing, and
otherwise true exactly when `now - last_checked_at ≥ k * 60`; hence it
is false immediately after the touch performed by `touch_last_check`
stamps the entry with `now`, and true again once that much time has
elapsed. -/
theorem c4_due_check (e : DomainEntry) (now k : Int)
    (hk : e.check_interval_minutes = some k) (hpos : 0 < k) :
    (e.last_checked_at = none → should_check e now = true) ∧
    (∀ t, e.last_checked_at = some t → (should_check e now = true ↔ now - t ≥ k * 60)) ∧
    (∀ status details, should_check (touchFields status details now e) now = false) ∧
    (∀ status details t2, t2 - now ≥ k * 60 →
      should_check (touchFields status details now e) t2 = true) := by
  have hk0 : (k == 0) = false := by
    simp only [beq_eq_false_iff_ne, ne_eq]
    omega
  have hi : pythonIntOr60 e.check_interval_minutes = k := by
    simp [pythonIntOr60, hk, hk0]
  have htouch : ∀ status details (t2 : Int),
      should_check (touchFields status details now e) t2 = decide (t2 - now ≥ k * 60) := by
    intro status details t2
    simp [should_check, touchFields, pythonIntOr60, hk, hk0]
  refine ⟨?_, ?_, ?_, ?_⟩
  · intro h
    simp [should_check, h]
  · intro t ht
    simp [should_check, ht, hi, decide_eq_true_iff]
  · intro status details
    rw [htouch]
    simp only [decide_eq_false_iff_not, not_le]
    omega
  · intro status details t2 h2
    rw [htouch]
    simp only [decide_eq_true_iff]
    omega

/-- Entry used to instantiate `c4_due_check`. -/
def c4Entry : DomainEntry :=
  { name := "w.example", label := "w", purpose := "other", check_interval_minutes := some 30,
    notify_admins := true, last_checked_at := some 0, last_status := none,
    last_details := none, notes := "" }

/-- C4, witness: `c4_due_check` instantiated at a concrete entry with
interval 30, last checked at time 0. -/
theorem c4_due_check_witness :
    c4Entry.check_interval_minutes = some 30 ∧ (0 : Int) < 30 ∧
    (should_check c4Entry 1800 = true ↔ (1800 : Int) - 0 ≥ 30 * 60) ∧
    should_check (touchFields "ok" none 1800 c4Entry) 1800 = false :=
  ⟨rfl, by decide,
   (c4_due_check c4Entry 1800 30 rfl (by decide)).2.1 0 rfl,
   (c4_due_check c4Entry 1800 30 rfl (by decide)).2.2.1 "ok" none⟩

/-- C9: when `check_interval_minutes` is absent/null or 0 (both falsy
to Python's `or`), the due-check substitutes 60 minutes: the entry is
due when the parsed `last_checked_at` is missing (null or unparseable),
and otherwise exactly when 3600 seconds have elapsed — so an interval-0
entry is not always due. -/
theorem c9_zero_interval (e : DomainEntry) (now : Int)
    (h : e.check_interval_minutes = none ∨ e.check_interval_minutes = some 0) :
    (e.last_checked_at = none → should_check e now = true) ∧
    (∀ t, e.last_checked_at = some t → (should_check e now = true ↔ now - t ≥ 60 * 60)) := by
  have hi : pythonIntOr60 e.check_interval_minutes = 60 := by
    rcases h with h | h <;> simp [pythonIntOr60, h]
  constructor
  · intro hl
    simp [should_check, hl]
  · intro t ht
    simp [should_check, ht, hi, decide_eq_true_iff]

/-- First entry of the two-domain store used for the race scenario. -/
def c2EntryA : DomainEntry :=
  { name := "a.example", label := "a.example", purpose := "other",
    check_interval_minutes := some 60, notify_admins := true, last_checked_at := none,
    last_status := none, last_details := none, notes := "" }

/-- Second entry of the two-domain store used for the race scenario. -/
def c2EntryB : DomainEntry :=
  { name := "b.example", label := "b.example", purpose := "other",
    check_interval_minutes := some 60, notify_admins := true, last_checked_at := none,
    last_status := none, last_details := none, notes := "" }

/-- Store holding the two distinct domains the racing touch calls target. -/
def c2Store : DomainStore := ⟨[c2EntryA, c2EntryB], [], []⟩

/-- Initial system state: two concurrent `touch_last_check` callers for
distinct names against the same store, neither having run yet. -/
def c2Init : Sys2 :=
  { shared := c2Store
    thread0 := { op_name := "a.example", op_status := "ok", op_time := 100,
                 loaded := none, done := false }
    thread1 := { op_name := "b.example", op_status := "ok", op_time := 100,
                 loaded := none, done := false } }

/-- C2, failing execution: the store's lock is taken and released
separately inside `load_domains` and inside `save_domains`, so the
schedule load0, load1, save0, save1 — legal because nothing holds the
lock between a caller's load and its save — completes both
`touch_last_check` calls yet leaves domain a.example untouched in the
durable store: thread 1's save overwrites thread 0's update (a lost
update).  A fully sequential schedule of the same two calls keeps both
updates, showing the loss comes from the interleaving alone. -/
theorem c2_lost_update :
    (runSched [false, true, false, true] c2Init).thread0.done = true ∧
    (runSched [false, true, false, true] c2Init).thread1.done = true ∧
    ((runSched [false, true, false, true] c2Init).shared.management.map
        (fun d => (d.name, d.last_status, d.last_checked_at)))
      = [("a.example", none, none), ("b.example", some "ok", some 100)] ∧
    ((runSched [false, false, true, true] c2Init).shared.management.map
        (fun d => (d.name, d.last_status, d.last_checked_at)))
      = [("a.example", some "ok", some 100), ("b.example", some "ok", some 100)] := by
  decide

/-- Mapping a function that fixes every member of a list is the
identity. -/
theorem map_eq_self_of {α : Type} (f : α → α) :
    ∀ l : List α, (∀ a ∈ l, f a = a) → l.map f = l := by
  intro l
  induction l with
  | nil => intro _; rfl
  | cons a t ih =>
    intro h
    simp only [List.map_cons]
    rw [h a (List.mem_cons_self a t), ih (fun x hx => h x (List.mem_cons_of_mem _ hx))]

/-- When no member of the list matches, `lastMatch` finds nothing. -/
theorem lastMatch_eq_none (name : String) :
    ∀ l : List DomainEntry, (∀ d ∈ l, (d.name == name) = false) → lastMatch name l = none := by
  intro l
  induction l with
  | nil => intro _; rfl
  | cons d t ih =>
    intro h
    simp only [lastMatch]
    rw [ih (fun x hx => h x (List.mem_cons_of_mem _ hx))]
    simp [h d (List.mem_cons_self d t)]

/-- When `lastMatch` finds nothing, no member of the list matches. -/
theorem no_match_of_lastMatch_none (name : String) :
    ∀ l : List DomainEntry, lastMatch name l = none →
      ∀ d ∈ l, (d.name == name) = false := by
  intro l
  induction l with
  | nil => intro _ d hd; cases hd
  | cons a t ih =>
    intro h d hd
    cases hl : lastMatch name t with
    | some r => rw [lastMatch, hl] at h; cases h
    | none =>
      rw [lastMatch, hl] at h
      rcases List.mem_cons.mp hd with rfl | hdt
      · by_cases hb : (d.name == name) = true
        · rw [if_pos hb] at h; cases h
        · exact Bool.eq_false_iff.mpr hb
      · exact ih hl d hdt

/-- Entries surviving the fold of `listStep` come from the accumulator
or from the scanned list. -/
theorem mem_foldl_listStep :
    ∀ (l out : List DomainEntry) (seen : List String) (x : DomainEntry),
      x ∈ (l.foldl listStep (out, seen)).1 → x ∈ out ∨ x ∈ l := by
  intro l
  induction l with
  | nil => intro out seen x hx; exact Or.inl hx
  | cons d t ih =>
    intro out seen x hx
    rw [List.foldl_cons] at hx
    by_cases hc : ((d.name == "") || seen.contains d.name) = true
    · rw [show listStep (out, seen) d = (out, seen) from by
        unfold listStep; rw [if_pos hc]] at hx
      rcases ih out seen x hx with h | h
      · exact Or.inl h
      · exact Or.inr (List.mem_cons_of_mem _ h)
    · rw [show listStep (out, seen) d = (out ++ [d], d.name :: seen) from by
        simp only [listStep, if_neg hc]] at hx
      rcases ih _ _ x hx with h | h
      · rcases List.mem_append.mp h with h2 | h2
        · exact Or.inl h2
        · rw [List.mem_singleton.mp h2]
          exact Or.inr (List.mem_cons_self d t)
      · exact Or.inr (List.mem_cons_of_mem _ h)

/-- Members of the flattened view come from the scan sequence. -/
theorem mem_scanOrder_of_mem_list_all (s : DomainStore) (x : DomainEntry)
    (hx : x ∈ list_all_domains s) : x ∈ scanOrder s := by
  rcases mem_foldl_listStep (scanOrder s) [] [] x hx with h | h
  · cases h
  · exact h

/-- When no entry of the scan sequence matches, `find_domain` returns
nothing. -/
theorem find_domain_none (name : String) (s : DomainStore)
    (h : ∀ d ∈ scanOrder s, (d.name == name) = false) : find_domain name s = none := by
  unfold find_domain
  rw [List.find?_eq_none]
  intro x hx
  simp [h x (mem_scanOrder_of_mem_list_all s x hx)]

/-- C10: a `touch_last_check` or `remove_domain` call whose name matches
no entry in any bucket returns null respectively 0, and performs no
save: the durable store content is returned unchanged. -/
theorem c10_no_match_no_save (s : DomainStore) (name status : String)
    (details : Option (DnsResult × DnsResult)) (now : Int)
    (h : ∀ d ∈ scanOrder s, (d.name == name) = false) :
    touch_last_check name status details now s = (s, none) ∧
    remove_domain name s = (s, 0) := by
  have hfilt : ∀ l : List DomainEntry, (∀ d ∈ l, (d.name == name) = false) →
      l.filter (fun d => !(d.name == name)) = l := by
    intro l hl
    rw [List.filter_eq_self]
    intro a ha
    simp [hl a ha]
  have hm : ∀ d ∈ s.management, (d.name == name) = false := by
    intro d hd; exact h d (by simp [scanOrder, hd])
  have hs : ∀ d ∈ s.subscription, (d.name == name) = false := by
    intro d hd; exact h d (by simp [scanOrder, hd])
  have hc : ∀ d ∈ (s.countries.map Prod.snd).flatten, (d.name == name) = false := by
    intro d hd; exact h d (by simp [scanOrder, hd])
  constructor
  · have hup : touch_updated name status details now s = none := by
      simp [touch_updated, lastMatch_eq_none name (scanOrder s) h]
    simp [touch_last_check, hup]
  · have hrc : ∀ cl : List (String × List DomainEntry),
        (∀ d ∈ (cl.map Prod.snd).flatten, (d.name == name) = false) →
        (removeFromCountries name cl).2 = 0 := by
      intro cl
      induction cl with
      | nil => intro _; rfl
      | cons q rest ih =>
        intro hq
        obtain ⟨c, l⟩ := q
        have hql : ∀ d ∈ l, (d.name == name) = false := by
          intro d hd
          exact hq d (by simp [hd])
        have hrest : ∀ d ∈ (rest.map Prod.snd).flatten, (d.name == name) = false := by
          intro d hd
          apply hq d
          simp only [List.map_cons, List.flatten_cons, List.mem_append]
          exact Or.inr hd
        simp only [removeFromCountries, hfilt l hql, ih hrest]
        omega
    have h1 := hfilt s.management hm
    have h2 := hfilt s.subscription hs
    have h3 := hrc s.countries hc
    simp [remove_domain, h1, h2, h3]

/-- Store holding no entry named ghost.example, used to instantiate
`c10_no_match_no_save`. -/
def c10Store : DomainStore :=
  ⟨[{ name := "x.example", label := "x", purpose := "other", check_interval_minutes := some 60,
      notify_admins := true, last_checked_at := none, last_status := none,
      last_details := none, notes := "" }],
   [],
   [("DE", [{ name := "y.example", label := "y", purpose := "other",
              check_interval_minutes := some 60, notify_admins := true,
              last_checked_at := none, last_status := none, last_details := none,
              notes := "" }])]⟩

/-- C10, witness: `c10_no_match_no_save` instantiated at a concrete
store with no entry named ghost.example. -/
theorem c10_no_match_no_save_witness :
    (∀ d ∈ scanOrder c10Store, (d.name == "ghost.example") = false) ∧
    touch_last_check "ghost.example" "ok" none 100 c10Store = (c10Store, none) ∧
    remove_domain "ghost.example" c10Store = (c10Store, 0) :=
  ⟨by decide,
   (c10_no_match_no_save c10Store "ghost.example" "ok" none 100 (by decide)).1,
   (c10_no_match_no_save c10Store "ghost.example" "ok" none 100 (by decide)).2⟩

/-- Per-entry effect `touch_last_check` is claimed to have, written out
field by field: a matching entry gets `last_checked_at := now`,
`last_status := status`, and `last_details := details` only when
details were given, every other field copied; a non-matching entry is
untouched. -/
def touchedSpec (name status : String) (details : Option (DnsResult × DnsResult)) (now : Int)
    (d : DomainEntry) : DomainEntry :=
  if d.name == name then
    { name := d.name, label := d.label, purpose := d.purpose,
      check_interval_minutes := d.check_interval_minutes,
      notify_admins := d.notify_admins,
      last_checked_at := some now,
      last_status := some status,
      last_details := match details with
        | some x => some x
        | none => d.last_details,
      notes := d.notes }
  else d

/-- C6: the store `touch_last_check` leaves behind is, bucket for
bucket and entry for entry, the original store with every occurrence
of `name` (in management, subscription, and each country bucket alike)
stamped as `touchedSpec` describes — `last_checked_at` set to the call
time, `last_status` to the given status, `last_details` overwritten
only when details are non-null — and every non-matching entry, every
other field, and the country keys unchanged. -/
theorem c6_touch_frame (s : DomainStore) (name status : String)
    (details : Option (DnsResult × DnsResult)) (now : Int) :
    (touch_last_check name status details now s).1.management
      = s.management.map (touchedSpec name status details now) ∧
    (touch_last_check name status details now s).1.subscription
      = s.subscription.map (touchedSpec name status details now) ∧
    (touch_last_check name status details now s).1.countries
      = s.countries.map (fun p => (p.1, p.2.map (touchedSpec name status details now))) := by
  have hfn : touchIfMatch name status details now = touchedSpec name status details now := by
    funext d
    unfold touchIfMatch touchFields touchedSpec
    rfl
  by_cases hu : (touch_updated name status details now s).isSome = true
  · have h1 : (touch_last_check name status details now s).1
        = ⟨s.management.map (touchIfMatch name status details now),
           s.subscription.map (touchIfMatch name status details now),
           s.countries.map (fun p => (p.1, p.2.map (touchIfMatch name status details now)))⟩ := by
      show (if _ then _ else _) = _
      rw [if_pos hu]
    rw [h1]
    simp [hfn]
  · have hu' : (touch_updated name status details now s).isSome = false :=
      Bool.eq_false_iff.mpr hu
    have hnm : ∀ d ∈ scanOrder s, (d.name == name) = false := by
      apply no_match_of_lastMatch_none
      cases hl : lastMatch name (scanOrder s) with
      | none => rfl
      | some r => rw [touch_updated, hl] at hu'; cases hu'
    have hspec : ∀ d ∈ scanOrder s, touchedSpec name status details now d = d := by
      intro d hd
      unfold touchedSpec
      rw [hnm d hd]
      simp
    have h1 : (touch_last_check name status details now s).1 = s := by
      show (if _ then _ else _) = _
      rw [if_neg]
      rw [hu']
      simp
    rw [h1]
    refine ⟨?_, ?_, ?_⟩
    · exact (map_eq_self_of _ _ (fun d hd => hspec d (by simp [scanOrder, hd]))).symm
    · exact (map_eq_self_of _ _ (fun d hd => hspec d (by simp [scanOrder, hd]))).symm
    · refine (map_eq_self_of _ _ ?_).symm
      intro p hp
      have hsub : p.2.map (touchedSpec name status details now) = p.2 := by
        apply map_eq_self_of
        intro d hd
        apply hspec d
        unfold scanOrder
        refine List.mem_append.mpr (Or.inr ?_)
        exact List.mem_flatten.mpr ⟨p.2, List.mem_map_of_mem Prod.snd hp, hd⟩
      rw [hsub]

/-- Unfolding equation of `dedupSpec` on a cons cell. -/
theorem dedupSpec_cons (seen : List String) (d : DomainEntry) (t : List DomainEntry) :
    dedupSpec seen (d :: t)
      = if seen.contains d.name then dedupSpec seen t
        else d :: dedupSpec (d.name :: seen) t := rfl

/-- The imperative fold of `list_all_domains` agrees with the direct
first-occurrence-wins recursion, provided no scanned entry has an
empty name (the store's own constructor `_ensure_domain_entry` never
produces one). -/
theorem foldl_listStep_eq_dedup :
    ∀ (l out : List DomainEntry) (seen : List String),
      (∀ d ∈ l, ¬(d.name = "")) →
      (l.foldl listStep (out, seen)).1 = out ++ dedupSpec seen l := by
  intro l
  induction l with
  | nil =>
    intro out seen _
    simp [dedupSpec]
  | cons d t ih =>
    intro out seen h
    have hne : (d.name == "") = false :=
      beq_eq_false_iff_ne.mpr (h d (List.mem_cons_self d t))
    rw [List.foldl_cons]
    by_cases hc : seen.contains d.name = true
    · rw [show listStep (out, seen) d = (out, seen) from by
        unfold listStep; rw [if_pos (by rw [hne, hc]; rfl)]]
      rw [ih out seen (fun x hx => h x (List.mem_cons_of_mem _ hx))]
      rw [show dedupSpec seen (d :: t) = dedupSpec seen t from by
        rw [dedupSpec_cons, if_pos hc]]
    · have hc' : seen.contains d.name = false := Bool.eq_false_iff.mpr hc
      rw [show listStep (out, seen) d = (out ++ [d], d.name :: seen) from by
        unfold listStep; rw [if_neg (by rw [hne, hc']; simp)]]
      rw [ih _ _ (fun x hx => h x (List.mem_cons_of_mem _ hx))]
      rw [show dedupSpec seen (d :: t) = d :: dedupSpec (d.name :: seen) t from by
        rw [dedupSpec_cons, if_neg (by rw [hc']; simp)]]
      simp

/-- Names in the spec-style de-duplication are pairwise distinct and
disjoint from the already-seen set. -/
theorem dedupSpec_nodup_and_fresh :
    ∀ (l : List DomainEntry) (seen : List String),
      ((dedupSpec seen l).map (fun d => d.name)).Nodup ∧
      ∀ x ∈ (dedupSpec seen l).map (fun d => d.name), seen.contains x = false := by
  intro l
  induction l with
  | nil =>
    intro seen
    constructor
    · simp [dedupSpec]
    · intro x hx
      simp [dedupSpec] at hx
  | cons d t ih =>
    intro seen
    by_cases hc : seen.contains d.name = true
    · rw [show dedupSpec seen (d :: t) = dedupSpec seen t from by
        rw [dedupSpec_cons, if_pos hc]]
      exact ih seen
    · have hc' : seen.contains d.name = false := Bool.eq_false_iff.mpr hc
      rw [show dedupSpec seen (d :: t) = d :: dedupSpec (d.name :: seen) t from by
        rw [dedupSpec_cons, if_neg (by rw [hc']; simp)]]
      have iht := ih (d.name :: seen)
      constructor
      · rw [List.map_cons, List.nodup_cons]
        constructor
        · intro hmem
          have hfresh := iht.2 _ hmem
          rw [List.contains_cons] at hfresh
          simp at hfresh
        · exact iht.1
      · intro x hx
        rw [List.map_cons] at hx
        rcases List.mem_cons.mp hx with rfl | hxs
        · exact hc'
        · have hfresh := iht.2 _ hxs
          rw [List.contains_cons] at hfresh
          exact (Bool.or_eq_false_iff.mp hfresh).2

/-- Unfolding equation of `find?` over a named predicate on a cons
cell, stated first-order to ease rewriting. -/
theorem find?_name_cons (n : String) (d : DomainEntry) (l : List DomainEntry) :
    (d :: l).find? (fun x => x.name == n)
      = if d.name == n then some d else l.find? (fun x => x.name == n) := by
  by_cases h : (d.name == n) = true
  · rw [if_pos h]
    exact List.find?_cons_of_pos l h
  · rw [if_neg h]
    exact List.find?_cons_of_neg l h

/-- Searching the de-duplicated list finds the same first match as
searching the underlying list, for any name not already seen. -/
theorem find?_dedupSpec (n : String) :
    ∀ (l : List DomainEntry) (seen : List String),
      seen.contains n = false →
      (dedupSpec seen l).find? (fun d => d.name == n) = l.find? (fun d => d.name == n) := by
  intro l
  induction l with
  | nil => intro seen _; rfl
  | cons d t ih =>
    intro seen h
    rw [show (d :: t).find? (fun x => x.name == n)
        = if d.name == n then some d else t.find? (fun x => x.name == n) from
      find?_name_cons n d t]
    by_cases hd : (d.name == n) = true
    · have hdn : d.name = n := beq_iff_eq.mp hd
      have hc' : seen.contains d.name = false := by rw [hdn]; exact h
      rw [show dedupSpec seen (d :: t) = d :: dedupSpec (d.name :: seen) t from by
        rw [dedupSpec_cons, if_neg (by rw [hc']; simp)]]
      rw [find?_name_cons, if_pos hd, if_pos hd]
    · have hd' : (d.name == n) = false := Bool.eq_false_iff.mpr hd
      rw [if_neg hd]
      by_cases hc : seen.contains d.name = true
      · rw [show dedupSpec seen (d :: t) = dedupSpec seen t from by
          rw [dedupSpec_cons, if_pos hc]]
        exact ih seen h
      · have hc' : seen.contains d.name = false := Bool.eq_false_iff.mpr hc
        rw [show dedupSpec seen (d :: t) = d :: dedupSpec (d.name :: seen) t from by
          rw [dedupSpec_cons, if_neg (by rw [hc']; simp)]]
        rw [find?_name_cons, if_neg hd]
        apply ih
        rw [List.contains_cons]
        have hnd : (n == d.name) = false := by
          refine beq_eq_false_iff_ne.mpr ?_
          intro he
          exact hd (beq_iff_eq.mpr he.symm)
        rw [hnd, h]
        rfl

/-- Country-bucket entry named d.example living in the US bucket. -/
def c5USEntry : DomainEntry :=
  { name := "d.example", label := "us", purpose := "other", check_interval_minutes := some 60,
    notify_admins := true, last_checked_at := none, last_status := none,
    last_details := none, notes := "" }

/-- Country-bucket entry named d.example living in the NL bucket. -/
def c5NLEntry : DomainEntry :=
  { name := "d.example", label := "nl", purpose := "other", check_interval_minutes := some 60,
    notify_admins := true, last_checked_at := none, last_status := none,
    last_details := none, notes := "" }

/-- Store whose countries map was populated US first, NL second — a
stored order that differs from country-code order. -/
def c5CexStore : DomainStore := ⟨[], [], [("US", [c5USEntry]), ("NL", [c5NLEntry])]⟩

/-- C5, counterexample: the claim scans the country buckets "in
country-code order", but `list_all_domains` walks the countries dict
in its stored (insertion) order.  On a store whose map holds US before
NL, the code keeps the US entry for a name present in both buckets,
while a country-code-order scan (NL before US) would keep the NL
entry. -/
theorem c5_counterexample :
    list_all_domains c5CexStore = [c5USEntry] ∧
    list_all_spec_ordered c5CexStore = [c5NLEntry] ∧
    ¬c5USEntry = c5NLEntry := by
  decide

/-- C5, amended: `list_all_domains` is the flat view de-duplicated by
name with the first occurrence winning, scanning management, then
subscription, then the country buckets in the map's stored (insertion)
order; the resulting names are pairwise distinct (a name present in
management and in a country bucket appears once, sourced from the
earlier bucket in scan order, i.e. management); and `find_domain`
returns the first match of that same scan sequence.  Stated for stores
whose entries all carry a non-empty name, as the store's own
constructor guarantees. -/
theorem c5_scan_order (s : DomainStore) (hs : ∀ d ∈ scanOrder s, ¬(d.name = "")) :
    list_all_domains s = dedupSpec [] (scanOrder s) ∧
    ((list_all_domains s).map (fun d => d.name)).Nodup ∧
    ∀ n, find_domain n s = (scanOrder s).find? (fun d => d.name == n) := by
  have h1 : list_all_domains s = dedupSpec [] (scanOrder s) := by
    unfold list_all_domains
    rw [foldl_listStep_eq_dedup (scanOrder s) [] [] hs]
    rfl
  refine ⟨h1, ?_, ?_⟩
  · rw [h1]
    exact (dedupSpec_nodup_and_fresh (scanOrder s) []).1
  · intro n
    unfold find_domain
    rw [h1, find?_dedupSpec n (scanOrder s) [] rfl]

/-- Management entry named m.example, also present in a country bucket. -/
def c5MgmtEntry : DomainEntry :=
  { name := "m.example", label := "mgmt", purpose := "other", check_interval_minutes := some 60,
    notify_admins := true, last_checked_at := none, last_status := none,
    last_details := none, notes := "" }

/-- Country copy of m.example with a different label. -/
def c5CountryEntry : DomainEntry :=
  { name := "m.example", label := "country", purpose := "other",
    check_interval_minutes := some 60, notify_admins := true, last_checked_at := none,
    last_status := none, last_details := none, notes := "" }

/-- Store with m.example both in management and in the NL bucket. -/
def c5Store : DomainStore := ⟨[c5MgmtEntry], [], [("NL", [c5CountryEntry])]⟩

/-- C5, witness: `c5_scan_order` instantiated at a store holding
m.example in both management and a country bucket; the flat view keeps
one copy, the management one, and `find_domain` returns it. -/
theorem c5_scan_order_witness :
    (∀ d ∈ scanOrder c5Store, ¬(d.name = "")) ∧
    list_all_domains c5Store = dedupSpec [] (scanOrder c5Store) ∧
    find_domain "m.example" c5Store
      = (scanOrder c5Store).find? (fun d => d.name == "m.example") ∧
    list_all_domains c5Store = [c5MgmtEntry] ∧
    find_domain "m.example" c5Store = some c5MgmtEntry :=
  ⟨by decide,
   (c5_scan_order c5Store (by decide)).1,
   (c5_scan_order c5Store (by decide)).2.2 "m.example",
   by decide, by decide⟩

/-- C7: under a valid section (and, for countries, a provided non-empty
country code), `add_domain` fails if and only if the name already
exists in the target bucket — management, subscription, or the single
(upper-cased) country bucket — so a name present only in a different
bucket does not trigger the duplicate error; and whenever it fails the
durable store content is unchanged (the raise happens before any
save). -/
theorem c7_add_duplicate_scope (s : DomainStore) (sect name : String)
    (label country : Option String) (purpose : String) (interval : Int)
    (notify : Bool) (notes : String) :
    (pyLower sect = "management" →
      ((exceptIsError (add_domain sect name label country purpose interval notify notes s)
          = true
        ↔ s.management.any (fun d => d.name == name) = true) ∧
       (exceptIsError (add_domain sect name label country purpose interval notify notes s)
          = true →
        add_domain_saved sect name label country purpose interval notify notes s = s))) ∧
    (pyLower sect = "subscription" →
      ((exceptIsError (add_domain sect name label country purpose interval notify notes s)
          = true
        ↔ s.subscription.any (fun d => d.name == name) = true) ∧
       (exceptIsError (add_domain sect name label country purpose interval notify notes s)
          = true →
        add_domain_saved sect name label country purpose interval notify notes s = s))) ∧
    (∀ c, pyLower sect = "countries" → country = some c → ¬(c = "") →
      ((exceptIsError (add_domain sect name label country purpose interval notify notes s)
          = true
        ↔ (lookupCountry (pyUpper c) s.countries).any (fun d => d.name == name) = true) ∧
       (exceptIsError (add_domain sect name label country purpose interval notify notes s)
          = true →
        add_domain_saved sect name label country purpose interval notify notes s = s))) := by
  refine ⟨?_, ?_, ?_⟩
  · intro h
    have e1 : (pyLower sect == "management") = true := by rw [h]; rfl
    cases hany : s.management.any (fun d => d.name == name) <;>
      simp [add_domain, add_domain_saved, e1, hany, exceptIsError]
  · intro h
    have e1 : (pyLower sect == "management") = false := by rw [h]; rfl
    have e2 : (pyLower sect == "subscription") = true := by rw [h]; rfl
    cases hany : s.subscription.any (fun d => d.name == name) <;>
      simp [add_domain, add_domain_saved, e1, e2, hany, exceptIsError]
  · intro c h hc hcne
    have e1 : (pyLower sect == "management") = false := by rw [h]; rfl
    have e2 : (pyLower sect == "subscription") = false := by rw [h]; rfl
    have e3 : (pyLower sect == "countries") = true := by rw [h]; rfl
    have hce : (c == "") = false := beq_eq_false_iff_ne.mpr hcne
    cases hany : (lookupCountry (pyUpper c) s.countries).any (fun d => d.name == name) <;>
      simp [add_domain, add_domain_saved, e1, e2, e3, hc, hce, hany, exceptIsError]

/-- Entry named x.example living in subscription only, for the C7
witness. -/
def c7Entry : DomainEntry :=
  { name := "x.example", label := "x", purpose := "other", check_interval_minutes := some 60,
    notify_admins := true, last_checked_at := none, last_status := none,
    last_details := none, notes := "" }

/-- Store with x.example in the subscription bucket only. -/
def c7Store : DomainStore := ⟨[], [c7Entry], []⟩

/-- C7, witness: `c7_add_duplicate_scope` instantiated at a store
holding x.example only in subscription: adding it to subscription is
exactly a duplicate error, adding it to management is not (per-bucket
scoping), and the failing call leaves the store unchanged. -/
theorem c7_add_duplicate_scope_witness :
    (exceptIsError (add_domain "subscription" "x.example" none none "other" 60 true "" c7Store)
        = true
      ↔ c7Store.subscription.any (fun d => d.name == "x.example") = true) ∧
    add_domain_saved "subscription" "x.example" none none "other" 60 true "" c7Store
      = c7Store ∧
    (exceptIsError (add_domain "management" "x.example" none none "other" 60 true "" c7Store)
        = true
      ↔ c7Store.management.any (fun d => d.name == "x.example") = true) ∧
    exceptIsError (add_domain "management" "x.example" none none "other" 60 true "" c7Store)
      = false :=
  ⟨((c7_add_duplicate_scope c7Store "subscription" "x.example" none none "other" 60 true "").2.1
      (by decide)).1,
   ((c7_add_duplicate_scope c7Store "subscription" "x.example" none none "other" 60 true "").2.1
      (by decide)).2 (by decide),
   ((c7_add_duplicate_scope c7Store "management" "x.example" none none "other" 60 true "").1
      (by decide)).1,
   by decide⟩

/-- Subtracting the length of the kept complement from the original
length counts exactly the matching elements. -/
theorem length_sub_filter {α : Type} (p : α → Bool) :
    ∀ l : List α, l.length - (l.filter (fun a => !(p a))).length = (l.filter p).length := by
  intro l
  induction l with
  | nil => rfl
  | cons a t ih =>
    have hle := List.length_filter_le (fun a => !(p a)) t
    cases h : p a <;> simp [List.filter_cons, h] <;> omega

/-- The removal count over the country buckets equals the number of
matching entries in their flattened contents. -/
theorem removeFromCountries_count (name : String) :
    ∀ cl : List (String × List DomainEntry),
      (removeFromCountries name cl).2
        = (((cl.map Prod.snd).flatten).filter (fun d => d.name == name)).length := by
  intro cl
  induction cl with
  | nil => rfl
  | cons q rest ih =>
    obtain ⟨c, l⟩ := q
    simp only [removeFromCountries, List.map_cons, List.flatten_cons, List.filter_append,
      List.length_append]
    rw [ih, length_sub_filter]

/-- Every bucket surviving the countries removal pass is non-empty and
free of the removed name. -/
theorem removeFromCountries_mem (name : String) :
    ∀ (cl : List (String × List DomainEntry)) (p : String × List DomainEntry),
      p ∈ (removeFromCountries name cl).1 →
      p.2 ≠ [] ∧ ∀ d ∈ p.2, (d.name == name) = false := by
  intro cl
  induction cl with
  | nil => intro p hp; cases hp
  | cons q rest ih =>
    intro p hp
    obtain ⟨c, l⟩ := q
    by_cases he : (l.filter (fun d => !(d.name == name))).isEmpty = true
    · rw [show (removeFromCountries name ((c, l) :: rest)).1
          = (removeFromCountries name rest).1 from by
        simp only [removeFromCountries]; rw [if_pos he]] at hp
      exact ih p hp
    · rw [show (removeFromCountries name ((c, l) :: rest)).1
          = (c, l.filter (fun d => !(d.name == name))) :: (removeFromCountries name rest).1
          from by
        simp only [removeFromCountries]; rw [if_neg he]] at hp
      rcases List.mem_cons.mp hp with rfl | hp2
      · constructor
        · intro h0
          apply he
          rw [show (c, l.filter (fun d => !(d.name == name))).2
              = l.filter (fun d => !(d.name == name)) from rfl] at h0
          rw [h0]
          rfl
        · intro d hd
          have hmf := List.mem_filter.mp hd
          simpa using hmf.2
      · exact ih p hp2

/-- C8: `remove_domain` returns the exact number of occurrences of the
name across management, subscription and all country buckets (removing
every one of them), `find_domain` finds nothing in the resulting
store, and — whenever something was removed, so a save happened — every
country bucket left in the saved store is non-empty (empty buckets are
pruned). -/
theorem c8_remove_all (s : DomainStore) (name : String) :
    (remove_domain name s).2 = countOccurrences name s ∧
    find_domain name (remove_domain name s).1 = none ∧
    (0 < (remove_domain name s).2 →
      ∀ p ∈ (remove_domain name s).1.countries, p.2 ≠ []) := by
  have hsnd : (remove_domain name s).2
      = (s.management.length - (s.management.filter (fun d => !(d.name == name))).length)
        + (s.subscription.length - (s.subscription.filter (fun d => !(d.name == name))).length)
        + (removeFromCountries name s.countries).2 := rfl
  have hcnt : (remove_domain name s).2 = countOccurrences name s := by
    rw [hsnd, length_sub_filter, length_sub_filter, removeFromCountries_count]
    unfold countOccurrences scanOrder
    rw [List.filter_append, List.filter_append, List.length_append, List.length_append]
  have hfst : (remove_domain name s).1
      = if 0 < (remove_domain name s).2 then
          (⟨s.management.filter (fun d => !(d.name == name)),
            s.subscription.filter (fun d => !(d.name == name)),
            (removeFromCountries name s.countries).1⟩ : DomainStore)
        else s := rfl
  refine ⟨hcnt, ?_, ?_⟩
  · apply find_domain_none
    intro d hd
    by_cases hz : 0 < (remove_domain name s).2
    · rw [hfst, if_pos hz] at hd
      unfold scanOrder at hd
      rcases List.mem_append.mp hd with h1 | h2
      · rcases List.mem_append.mp h1 with hm | hsub
        · simpa using (List.mem_filter.mp hm).2
        · simpa using (List.mem_filter.mp hsub).2
      · rcases List.mem_flatten.mp h2 with ⟨l2, hl2, hdl⟩
        rcases List.mem_map.mp hl2 with ⟨p, hp, rfl⟩
        exact (removeFromCountries_mem name s.countries p hp).2 d hdl
    · rw [hfst, if_neg hz] at hd
      have h0 : countOccurrences name s = 0 := by
        rw [← hcnt]
        omega
      unfold countOccurrences at h0
      have hnil := List.length_eq_zero.mp h0
      by_contra hne
      have ht : (d.name == name) = true := by
        revert hne
        cases d.name == name <;> simp
      have hdm : d ∈ (scanOrder s).filter (fun d => d.name == name) :=
        List.mem_filter.mpr ⟨hd, ht⟩
      rw [hnil] at hdm
      cases hdm
  · intro hpos p hp
    rw [hfst, if_pos hpos] at hp
    exact (removeFromCountries_mem name s.countries p hp).1

/-- Management copy of dup.example, for the C8 witness. -/
def c8DupMgmt : DomainEntry :=
  { name := "dup.example", label := "m", purpose := "other", check_interval_minutes := some 60,
    notify_admins := true, last_checked_at := none, last_status := none,
    last_details := none, notes := "" }

/-- NL-bucket copy of dup.example, for the C8 witness. -/
def c8DupNL : DomainEntry :=
  { name := "dup.example", label := "nl", purpose := "other", check_interval_minutes := some 60,
    notify_admins := true, last_checked_at := none, last_status := none,
    last_details := none, notes := "" }

/-- Unrelated entry keeping the US bucket alive, for the C8 witness. -/
def c8Other : DomainEntry :=
  { name := "o.example", label := "o", purpose := "other", check_interval_minutes := some 60,
    notify_admins := true, last_checked_at := none, last_status := none,
    last_details := none, notes := "" }

/-- Store with dup.example in management and in the NL bucket. -/
def c8Store : DomainStore := ⟨[c8DupMgmt], [], [("NL", [c8DupNL]), ("US", [c8Other])]⟩

/-- C8, witness: removing dup.example, present in management and in the
NL bucket, reports count 2, empties both (the NL bucket is pruned, the
untouched US bucket survives), and a subsequent find returns null. -/
theorem c8_remove_all_witness :
    (remove_domain "dup.example" c8Store).2 = 2 ∧
    0 < (remove_domain "dup.example" c8Store).2 ∧
    (∀ p ∈ (remove_domain "dup.example" c8Store).1.countries, p.2 ≠ []) ∧
    find_domain "dup.example" (remove_domain "dup.example" c8Store).1 = none ∧
    (remove_domain "dup.example" c8Store).1.management = [] ∧
    (remove_domain "dup.example" c8Store).1.countries = [("US", [c8Other])] :=
  ⟨by decide, by decide,
   (c8_remove_all c8Store "dup.example").2.2 (by decide),
   (c8_remove_all c8Store "dup.example").2.1,
   by decide, by decide⟩

/-- Entry used to instantiate `c9_zero_interval`. -/
def c9Entry : DomainEntry :=
  { name := "z.example", label := "z", purpose := "other", check_interval_minutes := some 0,
    notify_admins := true, last_checked_at := some 0, last_status := none,
    last_details := none, notes := "" }

/-- C9, witness: `c9_zero_interval` instantiated at an interval-0 entry
last checked at time 0, together with concrete evaluations showing it
is not due at 3599 seconds and due at 3600. -/
theorem c9_zero_interval_witness :
    (c9Entry.check_interval_minutes = none ∨ c9Entry.check_interval_minutes = some 0) ∧
    (should_check c9Entry 3599 = true ↔ (3599 : Int) - 0 ≥ 60 * 60) ∧
    should_check c9Entry 3599 = false ∧ should_check c9Entry 3600 = true :=
  ⟨Or.inr rfl, (c9_zero_interval c9Entry 3599 (Or.inr rfl)).2 0 rfl, by decide, by decide⟩

end CipherGate
